import Mathlib

/-!
A shallow embedding of the `@northscaler/rbac` policy-evaluation engine
(`AbstractRoleBasedAccessControlRepository` and its bundled specialization
`MethodAccessControlRepository`), together with theorems about its
rule-matching and strategy-interrogation algorithm.

Modelling conventions:
* A JavaScript `RegExp` used as a role / class / method pattern is observed by
  the engine only through `.test : String → Bool`, so patterns are embedded as
  Lean functions `String → Bool`.  The two concrete regexes appearing in the
  source (`^.+$` in `_scrubPolicy` and `^.*$` in the default method policy)
  are given their exact JavaScript semantics: `.` matches any character except
  a line terminator, and without the `m` flag `^`/`$` anchor at the ends of
  the whole input.
* A strategy value (`entry.strategy`) can be a boolean, a function, or any
  other JavaScript value; `_interrogate` distinguishes exactly booleans and
  functions via `typeof` and skips everything else, and `_scrubPolicy`
  replaces falsy values by `false`.  The embedding keeps a four-way variant:
  boolean, function, other-truthy value, other-falsy value (absence is
  `Option.none`).
* Securables and contextual data are opaque to the engine and are embedded as
  type parameters, as is the matcher-specific part of a policy entry.
-/

namespace Rbac

/-- The JavaScript line terminators, which `.` in a `RegExp` does not match:
LF, CR, LINE SEPARATOR, PARAGRAPH SEPARATOR. -/
def jsLineTerminator (c : Char) : Bool :=
  c == Char.ofNat 10 || c == Char.ofNat 13 || c == Char.ofNat 0x2028 || c == Char.ofNat 0x2029

/-- Semantics of `test` of the JavaScript regex `^.+$` (the default role pattern installed
by `_scrubPolicy`): matches exactly the nonempty strings containing no line
terminator.  (Characters are accessed through `String.data` so the kernel can
evaluate the definition on literals.) -/
def testCaretDotPlusDollar (s : String) : Bool :=
  !s.data.isEmpty && s.data.all (fun c => !jsLineTerminator c)

/-- Semantics of `test` of the JavaScript regex `^.*$` (used for `roles`, `classes` and
`methods` in the default method policy): matches exactly the strings
containing no line terminator. -/
def testCaretDotStarDollar (s : String) : Bool :=
  s.data.all (fun c => !jsLineTerminator c)

/-- The value of a policy entry's `strategy` property, as the engine can
observe it: a boolean, a function of the `{ role, securable, data }` record,
or some other JavaScript value, of which the engine only ever observes
truthiness (in `_scrubPolicy`) and `typeof` (in `_interrogate`). -/
inductive StrategyVal (σ δ : Type) where
  | bool (b : Bool)
  | func (f : String → σ → δ → Bool)
  | truthyOther
  | falsyOther

/-- A policy entry.  `roles` and `strategy` are optional (`none` models an
absent — or `null`/`undefined` — property); `fields` carries the
matcher-specific securable-identifying properties (e.g. `classes`/`methods`),
opaque to the abstract engine. -/
structure Entry (φ σ δ : Type) where
  roles : Option (String → Bool)
  strategy : Option (StrategyVal σ δ)
  fields : φ

/-- The per-entry arrow function inside `_scrubPolicy` (lines 47–51):
`{ ...entry, roles: entry.roles || /^.+$/, strategy: entry.strategy || false }` —
a falsy `roles` becomes the regex `^.+$` and a falsy `strategy` becomes the
boolean `false`. -/
def _scrubEntry {φ σ δ : Type} (entry : Entry φ σ δ) : Entry φ σ δ :=
  { entry with
    roles := some (match entry.roles with
      | none => testCaretDotPlusDollar
      | some pat => pat)
    strategy := match entry.strategy with
      | none => some (StrategyVal.bool false)
      | some StrategyVal.falsyOther => some (StrategyVal.bool false)
      | some v => some v }

/-- Embeds `_scrubPolicy` (lines 46–52): normalizes each entry. -/
def _scrubPolicy {φ σ δ : Type} (policy : List (Entry φ σ δ)) : List (Entry φ σ δ) :=
  policy.map _scrubEntry

/-- Embeds `_filterRoles` (lines 105–107): `!entry?.roles || entry?.roles.test(role)`. -/
def _filterRoles {φ σ δ : Type} (entry : Entry φ σ δ) (role : String) : Bool :=
  match entry.roles with
  | none => true
  | some pat => pat role

/-- Embeds `_interrogate` (lines 85–97), the polarity scan.  Walks the filtered
entries in order; a boolean strategy equal to `permit` yields `true`; a
function strategy is evaluated, yielding `true` when it agrees with a sought
grant and `false` when it refuses under a sought denial; any other strategy is
skipped; an exhausted list yields `false`. -/
def _interrogate {φ σ δ : Type} (role : String) (securable : σ) (data : δ) (permit : Bool) :
    List (Entry φ σ δ) → Bool
  | [] => false
  | it :: rest =>
    match it.strategy with
    | some (StrategyVal.bool b) =>
      if b == permit then true
      else _interrogate role securable data permit rest
    | some (StrategyVal.func f) =>
      let permitted := f role securable data
      if permit && permitted then true
      else if !permit && !permitted then false
      else _interrogate role securable data permit rest
    | _ => _interrogate role securable data permit rest

/-- Embeds `_permits` (lines 77–79): the grant-polarity scan. -/
def _permits {φ σ δ : Type} (entries : List (Entry φ σ δ)) (role : String) (securable : σ)
    (data : δ) : Bool :=
  _interrogate role securable data true entries

/-- Embeds `_explicitlyDenies` (lines 81–83): the deny-polarity scan. -/
def _explicitlyDenies {φ σ δ : Type} (entries : List (Entry φ σ δ)) (role : String)
    (securable : σ) (data : δ) : Bool :=
  _interrogate role securable data false entries

/-- A concrete repository: the scrubbed policy installed by the constructor
(line 43) plus the subclass-supplied `_filterSecurable` implementation. -/
structure Repo (φ σ δ : Type) where
  policy : List (Entry φ σ δ)
  filterSecurable : Entry φ σ δ → σ → Bool

/-- The constructor (lines 39–44): stores `_scrubPolicy(policy)`.  (The
`MissingRequiredArgumentError` / `IllegalArgumentError` guards cannot fire
here because the argument is a list by type.) -/
def Repo.mk' {φ σ δ : Type} (filterSecurable : Entry φ σ δ → σ → Bool)
    (policy : List (Entry φ σ δ)) : Repo φ σ δ :=
  { policy := _scrubPolicy policy, filterSecurable := filterSecurable }

/-- Embeds `_findEntries` (lines 99–103): the ordered sublist of policy entries whose
role pattern matches `role` and whose securable matches via the pluggable
matcher. -/
def Repo._findEntries {φ σ δ : Type} (repo : Repo φ σ δ) (role : String) (securable : σ) :
    List (Entry φ σ δ) :=
  repo.policy.filter fun entry =>
    _filterRoles entry role && repo.filterSecurable entry securable

/-- The `role` argument of `permits` / `explicitlyDenies`: the JavaScript code
distinguishes a single role name from an array of role names with
`Array.isArray`. -/
inductive RoleArg where
  | one (r : String)
  | many (rs : List String)

/-- Embeds `explicitlyDenies` (lines 66–75).  For an array of roles the source maps
the public `explicitlyDenies` over the single roles and checks
`results.includes(true)`; the recursive call on a single role evaluates to
exactly the single-role branch, inlined here so the recursion is structural. -/
def Repo.explicitlyDenies {φ σ δ : Type} (repo : Repo φ σ δ) (role : RoleArg) (securable : σ)
    (data : δ) : Bool :=
  match role with
  | RoleArg.many rs =>
    let results := rs.map fun it =>
      _explicitlyDenies (repo._findEntries it securable) it securable data
    results.contains true
  | RoleArg.one r =>
    _explicitlyDenies (repo._findEntries r securable) r securable data

/-- Embeds `permits` (lines 54–64).  For an array of roles: no single role is
explicitly denied and some single role is permitted.  For a single role: the
entries are filtered once, and the result is `!this._explicitlyDenies(...) &&
this._permits(...)`.  As in `Repo.explicitlyDenies`, the source's recursive
call of the public `permits` on each single role is inlined as the
single-role branch. -/
def Repo.permits {φ σ δ : Type} (repo : Repo φ σ δ) (role : RoleArg) (securable : σ)
    (data : δ) : Bool :=
  match role with
  | RoleArg.many rs =>
    !((rs.map fun it => repo.explicitlyDenies (RoleArg.one it) securable data).contains true) &&
      ((rs.map fun it =>
        let entries := repo._findEntries it securable
        !(_explicitlyDenies entries it securable data) && _permits entries it securable data)
        |>.contains true)
  | RoleArg.one r =>
    let entries := repo._findEntries r securable
    !(_explicitlyDenies entries r securable data) && _permits entries r securable data

/-- The matcher-specific fields of a `MethodAccessControlRepository` policy
entry: the `classes` and `methods` regexes, embedded via their `test`
functions. -/
structure MethodFields where
  classes : String → Bool
  methods : String → Bool

/-- A securable for `MethodAccessControlRepository`: `{ class, method }`. -/
structure MethodSecurable where
  «class» : String
  method : String

/-- Embeds `MethodAccessControlRepository._filterSecurable`:
`entry?.classes.test(securable?.class) && entry?.methods.test(securable?.method)`. -/
def methodFilterSecurable {δ : Type} (entry : Entry MethodFields MethodSecurable δ)
    (securable : MethodSecurable) : Bool :=
  entry.fields.classes securable.class && entry.fields.methods securable.method

/-- Embeds `DEFAULT_POLICY` (`default-method-policy.js`): a single entry with
`roles: /^.*$/`, `classes: /^.*$/`, `methods: /^.*$/`, `strategy: true`. -/
def DEFAULT_POLICY (δ : Type) : List (Entry MethodFields MethodSecurable δ) :=
  [{ roles := some testCaretDotStarDollar
     strategy := some (StrategyVal.bool true)
     fields := { classes := testCaretDotStarDollar, methods := testCaretDotStarDollar } }]

/-- Embeds the constructor of `MethodAccessControlRepository`: `super(policy || DEFAULT_POLICY)`
with the `_filterSecurable` override above; `none` models an absent `policy`
argument. -/
def MethodAccessControlRepository (δ : Type)
    (policy : Option (List (Entry MethodFields MethodSecurable δ))) :
    Repo MethodFields MethodSecurable δ :=
  Repo.mk' methodFilterSecurable (policy.getD (DEFAULT_POLICY δ))

/-- Entries that the deny-polarity scan passes over without resolving:
`Grant` booleans and non-boolean non-function strategies.  (A `Deny` boolean
or a function strategy ends the scan one way or the other.) -/
def denySkipped {φ σ δ : Type} (e : Entry φ σ δ) : Bool :=
  match e.strategy with
  | some (StrategyVal.bool b) => b
  | some (StrategyVal.func _) => false
  | _ => true

/-! Concrete entries and matchers over trivial securable/data types, used to
instantiate the general theorems. -/

/-- A matcher accepting every entry/securable pair. -/
def matchAllSecurable : Entry Unit Unit Unit → Unit → Bool := fun _ _ => true

/-- A matcher rejecting every entry/securable pair. -/
def matchNoSecurable : Entry Unit Unit Unit → Unit → Bool := fun _ _ => false

/-- An entry matching every role with `strategy: true` (`Grant`). -/
def entryAllow : Entry Unit Unit Unit :=
  { roles := some fun _ => true, strategy := some (StrategyVal.bool true), fields := () }

/-- An entry matching every role with `strategy: false` (`Deny`). -/
def entryDeny : Entry Unit Unit Unit :=
  { roles := some fun _ => true, strategy := some (StrategyVal.bool false), fields := () }

/-- An entry matching every role whose strategy is a predicate that always
returns `false`. -/
def entryPredFalse : Entry Unit Unit Unit :=
  { roles := some fun _ => true, strategy := some (StrategyVal.func fun _ _ _ => false),
    fields := () }

/-- An entry matching every role whose strategy is a truthy value that is
neither a boolean nor a function (e.g. a nonempty string). -/
def entryTruthy : Entry Unit Unit Unit :=
  { roles := some fun _ => true, strategy := some StrategyVal.truthyOther, fields := () }

/-- An entry with an absent `roles` property. -/
def entryNoRoles : Entry Unit Unit Unit :=
  { roles := none, strategy := some (StrategyVal.bool true), fields := () }

/-! Helper lemmas. -/

/-- Translation lemma: `results.includes(true)` over a mapped list is `List.any`. -/
theorem contains_true_eq_any {α : Type} (l : List α) (f : α → Bool) :
    (l.map f).contains true = l.any f := by
  induction l with
  | nil => rfl
  | cons x xs ih =>
    simp only [List.map_cons, List.any_cons, ← ih]
    cases f x <;> simp [List.contains, List.elem]

/-- Negated `any` is `all` of the negations. -/
theorem not_any_eq_all_not {α : Type} (l : List α) (f : α → Bool) :
    (!(l.any f)) = l.all fun a => !f a := by
  induction l with
  | nil => rfl
  | cons x xs ih => simp [List.any_cons, List.all_cons, ← ih]

/-- The single-role branch of the public `explicitlyDenies`. -/
theorem explicitlyDenies_one {φ σ δ : Type} (repo : Repo φ σ δ) (r : String) (s : σ) (d : δ) :
    repo.explicitlyDenies (RoleArg.one r) s d =
      _explicitlyDenies (repo._findEntries r s) r s d := rfl

/-- The single-role branch of the public `permits`. -/
theorem permits_one {φ σ δ : Type} (repo : Repo φ σ δ) (r : String) (s : σ) (d : δ) :
    repo.permits (RoleArg.one r) s d =
      (!(_explicitlyDenies (repo._findEntries r s) r s d) &&
        _permits (repo._findEntries r s) r s d) := rfl

/-- A deny-polarity scan walks past any block of `denySkipped` entries. -/
theorem interrogate_deny_append_skipped {φ σ δ : Type} (r : String) (s : σ) (d : δ)
    (pre rest : List (Entry φ σ δ)) (h : pre.all denySkipped = true) :
    _interrogate r s d false (pre ++ rest) = _interrogate r s d false rest := by
  induction pre with
  | nil => rfl
  | cons e es ih =>
    simp only [List.all_cons, Bool.and_eq_true] at h
    obtain ⟨he, hes⟩ := h
    rw [List.cons_append]
    cases hstrat : e.strategy with
    | none => simpa [_interrogate, hstrat] using ih hes
    | some v =>
      cases v with
      | bool b =>
        have hb : b = true := by simpa [denySkipped, hstrat] using he
        subst hb
        simpa [_interrogate, hstrat] using ih hes
      | func f => simp [denySkipped, hstrat] at he
      | truthyOther => simpa [_interrogate, hstrat] using ih hes
      | falsyOther => simpa [_interrogate, hstrat] using ih hes

/-- A filter whose predicate fails everywhere returns the empty list. -/
theorem filter_eq_nil_of_all_not {α : Type} (l : List α) (p : α → Bool)
    (h : (l.all fun a => !p a) = true) : l.filter p = [] := by
  induction l with
  | nil => rfl
  | cons x xs ih =>
    simp only [List.all_cons, Bool.and_eq_true, Bool.not_eq_true'] at h
    simp [List.filter, h.1, ih (by simpa using h.2)]

/-! Claim theorems. -/

/-- C1 (counterexample): `permits` on a single role is not the grant scan
alone.  Against the policy `[Deny, Grant]` (both entries matching role and
securable), the grant-polarity scan over the filtered entries returns `true`,
yet `permits` returns `false`, because the source conjoins
`!this._explicitlyDenies(...)`. -/
theorem permits_one_ne_grant_scan_cex :
    (Repo.mk' matchAllSecurable [entryDeny, entryAllow]).permits (RoleArg.one "admin") () ()
        = false ∧
      _interrogate "admin" () () true
        ((Repo.mk' matchAllSecurable [entryDeny, entryAllow])._findEntries "admin" ()) = true :=
  ⟨rfl, rfl⟩

/-- C1 (amended): for every policy, single role name, securable and data,
`permits` returns the polarity-grant scan over the filtered entries
conjoined with the negation of the polarity-deny scan over those same
entries. -/
theorem permits_one_eq_notDeny_and_grant {φ σ δ : Type} (repo : Repo φ σ δ) (r : String)
    (s : σ) (d : δ) :
    repo.permits (RoleArg.one r) s d =
      (!(_interrogate r s d false (repo._findEntries r s)) &&
        _interrogate r s d true (repo._findEntries r s)) := rfl

/-- C2 (counterexample): for the three-entry policy `[Grant, Grant, Deny]`
all matching role `R` and the securable, `permits` returns `false`, not
`true` as claimed (this is exactly the repository's own "should deny with a
single denial" test expectation). -/
theorem ggd_permits_false_cex :
    (Repo.mk' matchAllSecurable [entryAllow, entryAllow, entryDeny]).permits
      (RoleArg.one "R") () () = false := rfl

/-- C2 (amended): for a policy whose filtered entries for the single role `r`
and securable `s` have strategies `[Grant, Grant, Deny]` in that order,
`explicitlyDenies` returns `true` and `permits` returns `false`. -/
theorem ggd_explicitlyDenies_true_permits_false {φ σ δ : Type} (repo : Repo φ σ δ)
    (r : String) (s : σ) (d : δ) (e1 e2 e3 : Entry φ σ δ)
    (hfind : repo._findEntries r s = [e1, e2, e3])
    (h1 : e1.strategy = some (StrategyVal.bool true))
    (h2 : e2.strategy = some (StrategyVal.bool true))
    (h3 : e3.strategy = some (StrategyVal.bool false)) :
    repo.explicitlyDenies (RoleArg.one r) s d = true ∧
      repo.permits (RoleArg.one r) s d = false := by
  have hden : _explicitlyDenies (repo._findEntries r s) r s d = true := by
    rw [hfind]
    simp [_explicitlyDenies, _interrogate, h1, h2, h3]
  refine ⟨by rw [explicitlyDenies_one, hden], ?_⟩
  rw [permits_one, hden]
  rfl

/-- C2 (witness): the generic `[Grant, Grant, Deny]` theorem applied to a
concrete three-entry policy. -/
theorem ggd_explicitlyDenies_true_permits_false_witness :
    (Repo.mk' matchAllSecurable [entryAllow, entryAllow, entryDeny]).explicitlyDenies
        (RoleArg.one "R") () () = true ∧
      (Repo.mk' matchAllSecurable [entryAllow, entryAllow, entryDeny]).permits
        (RoleArg.one "R") () () = false :=
  ggd_explicitlyDenies_true_permits_false
    (Repo.mk' matchAllSecurable [entryAllow, entryAllow, entryDeny]) "R" () ()
    entryAllow entryAllow entryDeny rfl rfl rfl rfl

/-- C8: for every policy, role argument (single name or list), securable and
data, `permits` and `explicitlyDenies` are never both `true`. -/
theorem permits_denies_mutually_exclusive {φ σ δ : Type} (repo : Repo φ σ δ)
    (role : RoleArg) (s : σ) (d : δ) :
    (repo.permits role s d && repo.explicitlyDenies role s d) = false := by
  cases role with
  | one r =>
    rw [permits_one, explicitlyDenies_one]
    cases _explicitlyDenies (repo._findEntries r s) r s d <;> simp
  | many rs =>
    show
      ((!((rs.map fun it => repo.explicitlyDenies (RoleArg.one it) s d).contains true) && _) &&
        (rs.map fun it =>
          _explicitlyDenies (repo._findEntries it s) it s d).contains true) = false
    simp only [explicitlyDenies_one]
    cases h : (rs.map fun it =>
        _explicitlyDenies (repo._findEntries it s) it s d).contains true <;> simp [h]

/-- C9: for every policy, securable and data, an empty role list yields
`permits = false` and `explicitlyDenies = false`. -/
theorem empty_roleList_not_permitted_not_denied {φ σ δ : Type} (repo : Repo φ σ δ)
    (s : σ) (d : δ) :
    repo.permits (RoleArg.many []) s d = false ∧
      repo.explicitlyDenies (RoleArg.many []) s d = false :=
  ⟨rfl, rfl⟩

/-- C3: under deny-polarity interrogation of a single role, if the entries
reached before some function-strategy entry are all skipped by the deny scan
(`Grant` booleans or non-boolean non-function strategies, so that entry is
the first predicate reached and no earlier `Deny` resolved the scan) and that
predicate evaluates to `false`, then `explicitlyDenies` returns `false`, for
every suffix of later entries — in particular even when a later entry has
strategy `Deny`. -/
theorem firstFalsePredicate_stops_denyScan {φ σ δ : Type} (repo : Repo φ σ δ) (r : String)
    (s : σ) (d : δ) (pre post : List (Entry φ σ δ)) (e : Entry φ σ δ)
    (f : String → σ → δ → Bool)
    (hfind : repo._findEntries r s = pre ++ e :: post)
    (hpre : pre.all denySkipped = true)
    (hf : e.strategy = some (StrategyVal.func f))
    (hres : f r s d = false) :
    repo.explicitlyDenies (RoleArg.one r) s d = false := by
  rw [explicitlyDenies_one]
  unfold _explicitlyDenies
  rw [hfind, interrogate_deny_append_skipped r s d pre _ hpre]
  simp [_interrogate, hf, hres]

/-- C3 (witness): the short-circuit applied to the concrete filtered policy
`[Grant, Predicate(false), Deny]`: the later `Deny` entry is never
inspected. -/
theorem firstFalsePredicate_stops_denyScan_witness :
    (Repo.mk' matchAllSecurable [entryAllow, entryPredFalse, entryDeny]).explicitlyDenies
      (RoleArg.one "r") () () = false :=
  firstFalsePredicate_stops_denyScan
    (Repo.mk' matchAllSecurable [entryAllow, entryPredFalse, entryDeny]) "r" () ()
    [entryAllow] [entryDeny] entryPredFalse (fun _ _ _ => false) rfl rfl rfl rfl

/-- C4: for every policy, list of role names, securable and data: `permits`
is true iff no individual role is explicitly denied and at least one
individual role is permitted, and `explicitlyDenies` is true iff at least one
individual role is explicitly denied — each role evaluated independently via
the single-role operations against the full policy. -/
theorem roleList_aggregation {φ σ δ : Type} (repo : Repo φ σ δ) (rs : List String)
    (s : σ) (d : δ) :
    repo.permits (RoleArg.many rs) s d =
        ((rs.all fun r => !(repo.explicitlyDenies (RoleArg.one r) s d)) &&
          (rs.any fun r => repo.permits (RoleArg.one r) s d)) ∧
      repo.explicitlyDenies (RoleArg.many rs) s d =
        (rs.any fun r => repo.explicitlyDenies (RoleArg.one r) s d) := by
  constructor
  · show
      ((!((rs.map fun it => repo.explicitlyDenies (RoleArg.one it) s d).contains true) &&
        ((rs.map fun it =>
          !(_explicitlyDenies (repo._findEntries it s) it s d) &&
            _permits (repo._findEntries it s) it s d).contains true)) = _)
    rw [contains_true_eq_any, contains_true_eq_any, not_any_eq_all_not]
    rfl
  · show
      ((rs.map fun it => _explicitlyDenies (repo._findEntries it s) it s d).contains true = _)
    rw [contains_true_eq_any]
    rfl

/-- C5: for every policy, single role name, securable and data, if no policy
entry passes both the role filter and the securable matcher, then `permits`
and `explicitlyDenies` both return `false`. -/
theorem no_matching_entries_default_deny {φ σ δ : Type} (repo : Repo φ σ δ) (r : String)
    (s : σ) (d : δ)
    (h : (repo.policy.all fun e => !(_filterRoles e r && repo.filterSecurable e s)) = true) :
    repo.permits (RoleArg.one r) s d = false ∧
      repo.explicitlyDenies (RoleArg.one r) s d = false := by
  have hfind : repo._findEntries r s = [] := filter_eq_nil_of_all_not _ _ h
  rw [permits_one, explicitlyDenies_one, hfind]
  exact ⟨rfl, rfl⟩

/-- C5 (witness): a one-entry policy whose securable matcher rejects
everything: both interrogations return `false`. -/
theorem no_matching_entries_default_deny_witness :
    (Repo.mk' matchNoSecurable [entryDeny]).permits (RoleArg.one "r") () () = false ∧
      (Repo.mk' matchNoSecurable [entryDeny]).explicitlyDenies (RoleArg.one "r") () ()
        = false :=
  no_matching_entries_default_deny (Repo.mk' matchNoSecurable [entryDeny]) "r" () () rfl

/-- C10: an entry whose strategy is a truthy non-boolean non-function value
is inert: under either polarity, interrogating any entry list containing it
gives the same result as interrogating the list with it removed — it can
neither produce `true` nor terminate the scan. -/
theorem truthyOther_strategy_inert {φ σ δ : Type} (r : String) (s : σ) (d : δ)
    (permit : Bool) (pre post : List (Entry φ σ δ)) (e : Entry φ σ δ)
    (he : e.strategy = some StrategyVal.truthyOther) :
    _interrogate r s d permit (pre ++ e :: post) = _interrogate r s d permit (pre ++ post) := by
  induction pre with
  | nil => simp [_interrogate, he]
  | cons x xs ih =>
    simp only [List.cons_append]
    cases hx : x.strategy with
    | none => simpa [_interrogate, hx] using ih
    | some v =>
      cases v with
      | bool b =>
        cases hb : b == permit <;> simp [_interrogate, hx, hb, ih]
      | func f =>
        cases h1 : permit && f r s d
        · cases h2 : !permit && !(f r s d) <;> simp [_interrogate, hx, h1, h2, ih]
        · simp [_interrogate, hx, h1]
      | truthyOther => simpa [_interrogate, hx] using ih
      | falsyOther => simpa [_interrogate, hx] using ih

/-- C10 (witness): a truthy-string-strategy entry between a `Grant` and a
`Deny` is skipped by the deny-polarity scan. -/
theorem truthyOther_strategy_inert_witness :
    _interrogate "r" () () false ([entryAllow] ++ entryTruthy :: [entryDeny]) =
      _interrogate "r" () () false ([entryAllow] ++ [entryDeny]) :=
  truthyOther_strategy_inert "r" () () false [entryAllow] [entryDeny] entryTruthy rfl

/-- C6 (counterexample): an entry with an absent `roles` property is
normalized to the regex `^.+$`, which does not match the empty role string,
so the entry-filtering step rejects it for role `""`. -/
theorem scrub_absent_roles_empty_string_cex :
    _filterRoles (_scrubEntry entryNoRoles) "" = false := rfl

/-- C6 (amended): for every raw policy entry whose `roles` property is
absent, the normalized entry's role pattern (`^.+$`) matches every role
string that is nonempty and free of line terminators: the entry-filtering
step treats such an entry as role-matching for every such role. -/
theorem scrub_absent_roles_matches_lineFree {φ σ δ : Type} (e : Entry φ σ δ)
    (he : e.roles = none) (r : String) (hne : r.data.isEmpty = false)
    (hlf : (r.data.all fun c => !jsLineTerminator c) = true) :
    _filterRoles (_scrubEntry e) r = true := by
  simp [_filterRoles, _scrubEntry, he, testCaretDotPlusDollar, hne, hlf]

/-- C6 (witness): the amended statement at a concrete roleless entry and the
role `"admin"`. -/
theorem scrub_absent_roles_matches_lineFree_witness :
    _filterRoles (_scrubEntry entryNoRoles) "admin" = true :=
  scrub_absent_roles_matches_lineFree entryNoRoles rfl "admin" rfl (by decide)

/-- C7 (counterexample): against the default policy (absent `policy`
argument), a securable whose class name contains a newline defeats the
`^.*$` class pattern of the single default entry, so no entry matches and
`permits` returns `false` — the default policy does not permit *every*
role/securable pair. -/
theorem default_policy_newline_cex :
    (MethodAccessControlRepository Unit none).permits (RoleArg.one "x")
      { «class» := "a\nb", method := "m" } () = false := by decide

/-- C7 (amended): constructing a `MethodAccessControlRepository` with an
absent policy installs (the scrub of) the built-in single-entry allow-all
`DEFAULT_POLICY`, and against it, for every role name, class name and method
name free of line terminators, `permits` returns `true` and
`explicitlyDenies` returns `false`. -/
theorem default_policy_permits_lineFree {δ : Type} (d : δ) (role : String)
    (sec : MethodSecurable)
    (hr : (role.data.all fun c => !jsLineTerminator c) = true)
    (hc : (sec.class.data.all fun c => !jsLineTerminator c) = true)
    (hm : (sec.method.data.all fun c => !jsLineTerminator c) = true) :
    (MethodAccessControlRepository δ none).policy = _scrubPolicy (DEFAULT_POLICY δ) ∧
      (MethodAccessControlRepository δ none).permits (RoleArg.one role) sec d = true ∧
      (MethodAccessControlRepository δ none).explicitlyDenies (RoleArg.one role) sec d
        = false := by
  have hfind : (MethodAccessControlRepository δ none)._findEntries role sec =
      _scrubPolicy (DEFAULT_POLICY δ) := by
    simp [MethodAccessControlRepository, Repo.mk', Repo._findEntries, _scrubPolicy,
      _scrubEntry, DEFAULT_POLICY, _filterRoles, methodFilterSecurable,
      testCaretDotStarDollar, hr, hc, hm]
  refine ⟨rfl, ?_, ?_⟩
  · rw [permits_one, hfind]
    simp [_permits, _explicitlyDenies, _interrogate, _scrubPolicy, _scrubEntry,
      DEFAULT_POLICY]
  · rw [explicitlyDenies_one, hfind]
    simp [_explicitlyDenies, _interrogate, _scrubPolicy, _scrubEntry, DEFAULT_POLICY]

/-- C7 (witness): the amended statement at a concrete line-terminator-free
request. -/
theorem default_policy_permits_lineFree_witness :
    (MethodAccessControlRepository Unit none).policy = _scrubPolicy (DEFAULT_POLICY Unit) ∧
      (MethodAccessControlRepository Unit none).permits (RoleArg.one "Admin")
        { «class» := "Foo", method := "bar" } () = true ∧
      (MethodAccessControlRepository Unit none).explicitlyDenies (RoleArg.one "Admin")
        { «class» := "Foo", method := "bar" } () = false :=
  default_policy_permits_lineFree () "Admin" { «class» := "Foo", method := "bar" }
    (by decide) (by decide) (by decide)

end Rbac
